import Mathlib

/-!
The rdfpgajoy I2C joystick driver for the RD DVC2 FPGA.

A shallow embedding of `src/rdfpgajoy.c` and the properties of its
sampling / calibration / normalisation / scheduling engine.

Conventions of the embedding:

* C `int` values are mathematical integers (`Int`); `/` on `int` is C's
  truncating division, `Int.tdiv`.  The raw samples are 12-bit and the
  default range is `[0, 4095]`, so every product stays far below `2^31`.
  `normalise_axis_wrap` is the same function with every arithmetic result
  reduced to 32 bits; `normalise_axis_wrap_eq` and
  `normalise_axis_wrap_eq_min_zero` state where the two agree, and the
  properties that range over every `max` are stated on the 32-bit function.
* `char buf[4]` holds unsigned bytes (`Fin 256`), as on the ARM target and
  under the kernel's `-funsigned-char`.
* The input device is the record of capability bitmaps and axis ranges that
  the driver writes, and the calls made to the input core are returned as a
  list, in program order.
* Diagnostics (`dev_info`, `dev_warn`, `pr_debug`) are not observable here.
* The sysfs write buffers are lists of characters; kernel `sscanf` with the
  format "%d%d%d" is `sscanf_ddd`.
* The probe takes the outcome of the kernel services it calls as an argument;
  a run of the driver after the probe is a list of `driver_action`.
-/

namespace Rdfpgajoy

/-! ## Axis normalisation -/

/-- C source, lines 184-202:
```
int ideal_c = (min+max)/2;
if (c == max || c == min) return c;
v = (v > max ? max : v);
v = (v < min ? min : v);
if (v > c) v = (v-c)*ideal_c/(max-c) + ideal_c;
else       v = v*(ideal_c-min)/(c-min);
return v;
``` -/
def normalise_axis (v min c max : Int) : Int :=
  let ideal_c := (min + max).tdiv 2
  if c = max ∨ c = min then
    c
  else
    let v := if v > max then max else v
    let v := if v < min then min else v
    if v > c then
      ((v - c) * ideal_c).tdiv (max - c) + ideal_c
    else
      (v * (ideal_c - min)).tdiv (c - min)

/-- Reduction of an integer to the 32-bit two's-complement range of a C `int`. -/
def wrap_int (x : Int) : Int :=
  (x + 2147483648) % 4294967296 - 2147483648

/-- The function `normalise_axis` with the result of every arithmetic operation
reduced to 32 bits (the kernel is built with wrapping signed arithmetic). -/
def normalise_axis_wrap (v min c max : Int) : Int :=
  let ideal_c := wrap_int ((wrap_int (min + max)).tdiv 2)
  if c = max ∨ c = min then
    c
  else
    let v := if v > max then max else v
    let v := if v < min then min else v
    if v > c then
      wrap_int (wrap_int ((wrap_int (wrap_int (v - c) * ideal_c)).tdiv (wrap_int (max - c)))
        + ideal_c)
    else
      wrap_int ((wrap_int (v * wrap_int (ideal_c - min))).tdiv (wrap_int (c - min)))

/-! ## Input-core interface -/

/-- Event type `EV_KEY` of `linux/input-event-codes.h`. -/
def EV_KEY : Nat := 0x01
/-- Event type `EV_ABS` of `linux/input-event-codes.h`. -/
def EV_ABS : Nat := 0x03
/-- Absolute axis `ABS_X`. -/
def ABS_X : Nat := 0x00
/-- Absolute axis `ABS_Y`. -/
def ABS_Y : Nat := 0x01
/-- Absolute axis `ABS_RX`. -/
def ABS_RX : Nat := 0x03
/-- Absolute axis `ABS_RY`. -/
def ABS_RY : Nat := 0x04
/-- Button `BTN_THUMBL`. -/
def BTN_THUMBL : Nat := 0x13d
/-- Button `BTN_THUMBR`. -/
def BTN_THUMBR : Nat := 0x13e
/-- Error number `EINVAL`. -/
def EINVAL : Int := 22
/-- Error number `ENOMEM`. -/
def ENOMEM : Int := 12

/-- A kernel bitmap, bit `nr` being `addr nr`. -/
abbrev Bitmap := Nat → Bool

/-- Kernel `set_bit(nr, addr)`. -/
def set_bit (nr : Nat) (addr : Bitmap) : Bitmap :=
  fun i => if i = nr then true else addr i

/-- Kernel `clear_bit(nr, addr)`. -/
def clear_bit (nr : Nat) (addr : Bitmap) : Bitmap :=
  fun i => if i = nr then false else addr i

/-- Kernel `struct input_absinfo`, the fields `input_set_abs_params` writes. -/
structure input_absinfo where
  minimum : Int
  maximum : Int
  fuzz : Int
  flat : Int
deriving DecidableEq, Repr

/-- Kernel `struct input_dev`, restricted to the capability state the driver
writes: the event-type, key and absolute-axis bitmaps and the axis ranges. -/
structure input_dev where
  evbit : Bitmap
  keybit : Bitmap
  absbit : Bitmap
  absinfo : Nat → input_absinfo

/-- Modelled from the spec: the input-core helper `input_set_abs_params` is not
in src/.  It makes `axis` an active absolute axis whose range is `[min, max]`
with the given fuzz and flat values: it records the range and sets the
`EV_ABS` event bit and the axis bit. -/
def input_set_abs_params (dev : input_dev) (axis : Nat) (min max fuzz flat : Int) :
    input_dev :=
  { dev with
    absinfo := fun a => if a = axis then ⟨min, max, fuzz, flat⟩ else dev.absinfo a
    evbit := set_bit EV_ABS dev.evbit
    absbit := set_bit axis dev.absbit }

/-- A call the driver makes to the input core while publishing. -/
inductive input_call where
  | report_abs (code : Nat) (value : Int)
  | report_key (code : Nat) (value : Int)
  | sync
deriving DecidableEq, Repr

/-! ## Driver state -/

/-- Module parameters and kernel constants read by the driver (lines 20-38);
`HZ` is the kernel tick rate. -/
structure module_params where
  suppress_i2c : Int
  poll_rate : Nat
  joy_min : Int
  joy_max : Int
  joy_fuzz : Int
  HZ : Nat

/-- C source, lines 42-54: `struct rdfpgajoy_data` (the client and work handles
carry no data of their own). -/
structure rdfpgajoy_data where
  input_dev : input_dev
  is_rightjoy : Bool
  calibrate : Bool
  center_x : Int
  center_y : Int
  min : Int
  max : Int
  fuzz : Int
  i2c_failures : Int

/-- C source, lines 56-88. -/
def rdfpgajoy_input_caps (input : input_dev) (is_rightjoy : Bool)
    (min max fuzz : Int) : input_dev :=
  let input := { input with evbit := set_bit EV_KEY input.evbit }
  let input := { input with evbit := set_bit EV_ABS input.evbit }
  if is_rightjoy then
    let input := { input with keybit := clear_bit BTN_THUMBL input.keybit }
    let input := { input with absbit := clear_bit ABS_X input.absbit }
    let input := { input with absbit := clear_bit ABS_Y input.absbit }
    let input := { input with keybit := set_bit BTN_THUMBR input.keybit }
    let input := input_set_abs_params input ABS_RX min max fuzz 0
    input_set_abs_params input ABS_RY min max fuzz 0
  else
    let input := { input with keybit := clear_bit BTN_THUMBR input.keybit }
    let input := { input with absbit := clear_bit ABS_RX input.absbit }
    let input := { input with absbit := clear_bit ABS_RY input.absbit }
    let input := { input with keybit := set_bit BTN_THUMBL input.keybit }
    let input := input_set_abs_params input ABS_X min max fuzz 0
    input_set_abs_params input ABS_Y min max fuzz 0

/-- C source, lines 90-103: the calls made to the input core, in order. -/
def raise_events (p : rdfpgajoy_data) (x y btn : Int) : List input_call :=
  if p.is_rightjoy then
    [.report_abs ABS_RX x, .report_abs ABS_RY y, .report_key BTN_THUMBR btn, .sync]
  else
    [.report_abs ABS_X x, .report_abs ABS_Y y, .report_key BTN_THUMBL btn, .sync]

/-- First byte of a sysfs write buffer: sysfs terminates the written bytes
with NUL, so an empty write has `buffer[0] = 0`. -/
def buffer0 (buffer : List Char) : Char :=
  buffer.headD (Char.ofNat 0)

/-- C source, lines 105-119: the new state and the return value. -/
def joyside_store (p : rdfpgajoy_data) (buffer : List Char) (count : Nat) :
    rdfpgajoy_data × Int :=
  if buffer0 buffer ≠ 'l' ∧ buffer0 buffer ≠ 'r' then
    (p, -EINVAL)
  else
    let p := { p with is_rightjoy := decide (buffer0 buffer = 'r') }
    let p := { p with
      input_dev := rdfpgajoy_input_caps p.input_dev p.is_rightjoy p.min p.max p.fuzz }
    (p, (count : Int))

/-- C source, lines 121-132: the character written before the newline. -/
def joyside_show (p : rdfpgajoy_data) : Char :=
  if p.is_rightjoy then 'r' else 'l'

/-! ## Bus read and polling cycle -/

/-- Outcome of `i2c_master_recv(client, buf, 4)`: the return value and the
four bytes left in `buf`. -/
structure i2c_recv where
  ret : Int
  buf0 : Fin 256
  buf1 : Fin 256
  buf2 : Fin 256
  buf3 : Fin 256
deriving DecidableEq, Repr

/-- What `rdfpgajoy_i2cread` leaves behind: the state, the cells behind the
`x`, `y` and `btn` pointers (`btn` may be NULL, `none`) and the return value. -/
structure i2cread_result where
  p : rdfpgajoy_data
  x : Int
  y : Int
  btn : Option Int
  ret : Bool

/-- C source, lines 204-235.  `x`, `y`, `btn` are the cells the pointers refer
to on entry; `recv` is consulted only when bus traffic is not suppressed. -/
def rdfpgajoy_i2cread (g : module_params) (p : rdfpgajoy_data) (recv : i2c_recv)
    (x y : Int) (btn : Option Int) : i2cread_result :=
  let r : i2cread_result :=
    if g.suppress_i2c ≠ 0 then
      ⟨p, x, y, btn, false⟩
    else if recv.ret ≠ 4 then
      ⟨{ p with i2c_failures := p.i2c_failures + 1 }, x, y, btn, false⟩
    else
      let y : Int := (((recv.buf0.val <<< 8) ||| recv.buf1.val) &&& 0xFFF : Nat)
      let x : Int := (((recv.buf2.val <<< 8) ||| recv.buf3.val) &&& 0xFFF : Nat)
      let btn := btn.map (fun _ => (0 : Int))
      ⟨{ p with i2c_failures := 0 }, x, y, btn, false⟩
  { r with ret := decide (r.p.i2c_failures = 0) }

/-- Delay `HZ / (unsigned long)poll_rate` in ticks; `none` is the division trap
of a zero poll rate. -/
def normal_interval (g : module_params) : Option Nat :=
  if g.poll_rate = 0 then none else some (g.HZ / g.poll_rate)

/-- Delay `HZ * 10UL` in ticks. -/
def degraded_interval (g : module_params) : Option Nat :=
  some (g.HZ * 10)

/-- What one run of `rdfpgajoy_work` does: the new state, the calls made to the
input core and the delay handed to `queue_delayed_work`. -/
structure work_result where
  p : rdfpgajoy_data
  calls : List input_call
  delay : Option Nat

/-- C source, lines 237-276.  `btn0` is the indeterminate initial content of the
local `btn`. -/
def rdfpgajoy_work (g : module_params) (p : rdfpgajoy_data) (recv : i2c_recv)
    (btn0 : Int) : work_result :=
  let r := rdfpgajoy_i2cread g p recv 0 0 (some btn0)
  let p := r.p
  let out : rdfpgajoy_data × List input_call :=
    if r.ret then
      let p :=
        if p.calibrate then
          { p with center_x := r.x, center_y := r.y, calibrate := false }
        else p
      let x := normalise_axis r.x p.min p.center_x p.max
      let y := normalise_axis r.y p.min p.center_y p.max
      (p, raise_events p x y (r.btn.getD btn0))
    else
      (p, [])
  let p := out.1
  let delay := if p.i2c_failures < 5 then normal_interval g else degraded_interval g
  ⟨p, out.2, delay⟩

/-- The self-rescheduling work item run once per element of `rs` (a bus outcome
and the indeterminate `btn` of that run), each run starting from the state the
previous one left. -/
def poll_cycles (g : module_params) (p : rdfpgajoy_data) :
    List (i2c_recv × Int) → List work_result
  | [] => []
  | r :: rs =>
    let w := rdfpgajoy_work g p r.1 r.2
    w :: poll_cycles g w.p rs

/-! ## Sample values -/

/-- A freshly allocated input device: every capability bit clear. -/
def input_dev_zero : input_dev :=
  ⟨fun _ => false, fun _ => false, fun _ => false, fun _ => ⟨0, 0, 0, 0⟩⟩

/-- The module parameters at their defaults (lines 20-38), with `HZ = 100`. -/
def params_default : module_params :=
  ⟨0, 10, 0x000, 0xFFF, 0x020, 100⟩

/-- A left-side device on the default range `[0, 4095]`, centre at the midpoint. -/
def data_default : rdfpgajoy_data :=
  ⟨rdfpgajoy_input_caps input_dev_zero false 0 4095 32, false, false, 2047, 2047, 0, 4095, 32, 0⟩

/-- A left-side device configured for the range `[100, 300]` and calibrated at
the raw sample `(150, 150)`. -/
def data_offset : rdfpgajoy_data :=
  ⟨rdfpgajoy_input_caps input_dev_zero false 100 300 32, false, false, 150, 150, 100, 300, 32, 0⟩

/-- A failed bus transaction (`i2c_master_recv` returned `-EIO`). -/
def recv_fail : i2c_recv := ⟨-5, 0, 0, 0, 0⟩

/-- A successful read of `y = 0x12c = 300`, `x = 0x12c = 300`. -/
def recv_300 : i2c_recv := ⟨4, 0x01, 0x2c, 0x01, 0x2c⟩

/-! ## Guarded division -/

/-- C integer division with the division-by-zero trap made explicit. -/
def c_div (a b : Int) : Option Int :=
  if b = 0 then none else some (a.tdiv b)

/-- C source, lines 184-202, every `/` guarded: `none` is a division by zero. -/
def normalise_axis_checked (v min c max : Int) : Option Int := do
  let ideal_c ← c_div (min + max) 2
  if c = max ∨ c = min then
    pure c
  else
    let v := if v > max then max else v
    let v := if v < min then min else v
    if v > c then
      let q ← c_div ((v - c) * ideal_c) (max - c)
      pure (q + ideal_c)
    else
      c_div (v * (ideal_c - min)) (c - min)

/-- The values a C `int` can hold. -/
def int_range (x : Int) : Prop :=
  -2147483648 ≤ x ∧ x < 2147483648

/-- With `min = 0`, the two products of `normalise_axis` fit a C `int` for the
centre `c` and the range end `max`: `(max - c) * (max / 2)`, the largest product
of the upper segment (taken when `c < max`), and `min(c, max) * (max / 2)`, the
largest product of the lower segment (taken when `0 < c`). -/
def products_fit (c max : Int) : Prop :=
  (c < max → (max - c) * max.tdiv 2 < 2147483648) ∧
    (0 < c → min c max * max.tdiv 2 < 2147483648)

/-! ## Event injection -/

/-- Kernel `isspace` on a byte (`lib/ctype.c`). -/
def isspace (c : Char) : Bool :=
  c.toNat = 32 || (9 ≤ c.toNat && c.toNat ≤ 13) || c.toNat = 160

/-- Modelled from the spec: kernel `sscanf` is not in src/.  One `%d`
conversion: white space is skipped, an optional '-' and at least one decimal
digit are required, the digits give the value (reduced to an `int`), and the
scan resumes after the last digit.  `none` is a failed conversion. -/
def scan_d (s : List Char) : Option (Int × List Char) :=
  let s := s.dropWhile isspace
  let neg := decide (s.head? = some '-')
  let t := if neg then s.drop 1 else s
  if (t.head?.map Char.isDigit).getD false then
    let n : Nat := (t.takeWhile Char.isDigit).foldl (fun n c => 10 * n + (c.toNat - 48)) 0
    some (wrap_int (if neg then -(n : Int) else (n : Int)), t.dropWhile Char.isDigit)
  else
    none

/-- Modelled from the spec: kernel `sscanf` is not in src/.  The call
`sscanf(buffer, "%d%d%d", &x, &y, &btn)`: the integers converted, in order,
the scan stopping at the first failed conversion; the return value of `sscanf`
is the length of this list. -/
def sscanf_ddd (buffer : List Char) : List Int :=
  match scan_d buffer with
  | none => []
  | some (x, s1) =>
    match scan_d s1 with
    | none => [x]
    | some (y, s2) =>
      match scan_d s2 with
      | none => [x, y]
      | some (btn, _) => [x, y, btn]

/-- What `inject_event_store` does: the state, the calls made to the input core
and the return value. -/
structure store_result where
  p : rdfpgajoy_data
  calls : List input_call
  ret : Int

/-- C source, lines 134-150. -/
def inject_event_store (p : rdfpgajoy_data) (buffer : List Char) (count : Nat) :
    store_result :=
  match sscanf_ddd buffer with
  | [x, y, btn] => ⟨p, raise_events p x y btn, (count : Int)⟩
  | _ => ⟨p, [], (count : Int)⟩

/-! ## Driver initialisation -/

/-- The device-tree node of the joystick: the properties the probe reads
(`u32` values as naturals below `2^32`). -/
structure device_node where
  calibrate : Bool
  joystick_right : Bool
  poll_rate : Option Nat
  joy_min : Option Nat
  joy_max : Option Nat
  joy_fuzz : Option Nat

/-- Outcome of the kernel services the probe calls: `devm_kzalloc`,
`sysfs_create_group`, `input_allocate_device`, `input_register_device`. -/
structure probe_env where
  kzalloc_ok : Bool
  sysfs_error : Int
  input_alloc_ok : Bool
  register_error : Int

/-- What the probe leaves behind: the return value, the module parameters
(`poll_rate` may be overwritten), and on success the device data and the delay
handed to `queue_delayed_work`. -/
structure probe_result where
  ret : Int
  g : module_params
  p : Option rdfpgajoy_data
  delay : Option Nat

/-- C source, lines 279-369. -/
def rdfpgajoy_probe (g : module_params) (np : Option device_node) (env : probe_env) :
    probe_result :=
  if !env.kzalloc_ok then ⟨-ENOMEM, g, none, none⟩
  else if env.sysfs_error ≠ 0 then ⟨env.sysfs_error, g, none, none⟩
  else if !env.input_alloc_ok then ⟨-ENOMEM, g, none, none⟩
  else
    let p : rdfpgajoy_data := ⟨input_dev_zero, false, false, 0, 0, 0, 0, 0, 0⟩
    let p := { p with calibrate := false, min := g.joy_min, max := g.joy_max, fuzz := g.joy_fuzz }
    let gp : module_params × rdfpgajoy_data :=
      match np with
      | none => (g, p)
      | some np =>
        let p := { p with calibrate := np.calibrate, is_rightjoy := np.joystick_right }
        let g := match np.poll_rate with
          | some v => { g with poll_rate := v % 4294967296 }
          | none => g
        let p := match np.joy_min with
          | some v => { p with min := wrap_int v }
          | none => p
        let p := match np.joy_max with
          | some v => { p with max := wrap_int v }
          | none => p
        let p := match np.joy_fuzz with
          | some v => { p with fuzz := wrap_int v }
          | none => p
        (g, p)
    let g := gp.1
    let p := gp.2
    let p := { p with center_x := (p.min + p.max).tdiv 2 }
    let p := { p with center_y := p.center_x }
    let p := { p with
      input_dev := rdfpgajoy_input_caps p.input_dev p.is_rightjoy p.min p.max p.fuzz }
    if env.register_error ≠ 0 then ⟨-ENOMEM, g, none, none⟩
    else ⟨0, g, some p, normal_interval g⟩

/-! ## Runs of the driver -/

/-- An entry into the driver after the probe: one run of the work item (with
the module parameters, bus outcome and indeterminate `btn` of that run) or one
write to the `joyside` attribute. -/
inductive driver_action where
  | cycle (g : module_params) (recv : i2c_recv) (btn0 : Int)
  | joyside (buffer : List Char) (count : Nat)

/-- The device data after one action. -/
def apply_action (p : rdfpgajoy_data) : driver_action → rdfpgajoy_data
  | .cycle g recv btn0 => (rdfpgajoy_work g p recv btn0).p
  | .joyside buffer count => (joyside_store p buffer count).1

/-- The device data after a sequence of actions. -/
def run_actions (p : rdfpgajoy_data) (acts : List driver_action) : rdfpgajoy_data :=
  acts.foldl apply_action p

/-- The button bit and both axis bits of the side `right` are set. -/
def side_armed (d : input_dev) (right : Bool) : Bool :=
  if right then d.keybit BTN_THUMBR && d.absbit ABS_RX && d.absbit ABS_RY
  else d.keybit BTN_THUMBL && d.absbit ABS_X && d.absbit ABS_Y

/-- The button bit and both axis bits of the side `right` are clear. -/
def side_clear (d : input_dev) (right : Bool) : Bool :=
  if right then !d.keybit BTN_THUMBR && !d.absbit ABS_RX && !d.absbit ABS_RY
  else !d.keybit BTN_THUMBL && !d.absbit ABS_X && !d.absbit ABS_Y

/-- What holds of the device data after the probe and after every later cycle
or `joyside` write: the failure count is not negative, each centre coordinate is
the midpoint of the range or a value in the raw range `[0, 4095]`, and the
capabilities of the current side are set and those of the other side clear. -/
def data_invariant (p : rdfpgajoy_data) : Prop :=
  0 ≤ p.i2c_failures ∧
    (p.center_x = (p.min + p.max).tdiv 2 ∨ (0 ≤ p.center_x ∧ p.center_x ≤ 4095)) ∧
    (p.center_y = (p.min + p.max).tdiv 2 ∨ (0 ≤ p.center_y ∧ p.center_y ≤ 4095)) ∧
    side_armed p.input_dev p.is_rightjoy = true ∧
    side_clear p.input_dev (!p.is_rightjoy) = true

/-- All kernel services of the probe succeed. -/
def env_ok : probe_env := ⟨true, 0, true, 0⟩

/-- A device-tree node asking for calibration on the default range. -/
def node_calibrate : device_node := ⟨true, false, none, none, none, none⟩

/-- A device-tree node asking for calibration on the range `[0, 100]`. -/
def node_small : device_node := ⟨true, false, none, some 0, some 100, none⟩

/-! ## Normalisation: theorems -/

/-- C1: for `min < max` and a centre equal to `min` or to `max`,
`normalise_axis` returns the centre, whatever the raw value. -/
theorem normalise_axis_degenerate (v min c max : Int) (_h : min < max)
    (hc : c = min ∨ c = max) : normalise_axis v min c max = c := by
  unfold normalise_axis
  have hc' : c = max ∨ c = min := hc.symm
  simp only [if_pos hc']

/-- Witness of C1 at `v = 5000`, `min = 0`, `c = max = 4095`. -/
theorem normalise_axis_degenerate_witness :
    (0 : Int) < 4095 ∧ normalise_axis 5000 0 4095 4095 = 4095 :=
  ⟨by decide, normalise_axis_degenerate 5000 0 4095 4095 (by decide) (Or.inr rfl)⟩

/-- C2, as stated, fails: with `min = 0`, `max = 4095`, `c = 2048` the three
values are not `2048`, `0`, `4095`. -/
theorem normalise_axis_default_counterexample :
    ¬ (normalise_axis 2048 0 2048 4095 = 2048 ∧ normalise_axis 0 0 2048 4095 = 0 ∧
        normalise_axis 4095 0 2048 4095 = 4095) := by
  decide

/-- C2, amended: with `min = 0`, `max = 4095`, `c = 2048` the centre maps to the
truncated midpoint `(0 + 4095) / 2 = 2047` and the lower end `0` maps to `0`. -/
theorem normalise_axis_default_centre :
    normalise_axis 2048 0 2048 4095 = 2047 ∧ ((0 : Int) + 4095).tdiv 2 = 2047 ∧
      normalise_axis 0 0 2048 4095 = 0 := by
  decide

/-- C3, the code at the failing inputs: on the range `[100, 300]` with centre
`150` the centre maps to `300` (midpoint `200`), `min` to `200` and `max` to
`400`; on the default range `[0, 4095]` with centre `2048`, `max` maps to `4094`. -/
theorem normalise_axis_fixed_points_fail :
    normalise_axis 150 100 150 300 = 300 ∧ ((100 : Int) + 300).tdiv 2 = 200 ∧
      normalise_axis 100 100 150 300 = 200 ∧ normalise_axis 300 100 150 300 = 400 ∧
      normalise_axis 4095 0 2048 4095 = 4094 := by
  decide

/-- C4, the code at the failing input: on the range `[100, 300]` with centre
`150`, the raw values `150 < 151` are mapped to `300 > 201`. -/
theorem normalise_axis_not_monotone :
    (100 : Int) < 300 ∧ (150 : Int) < 151 ∧
      normalise_axis 150 100 150 300 = 300 ∧ normalise_axis 151 100 150 300 = 201 ∧
      ¬ (normalise_axis 150 100 150 300 ≤ normalise_axis 151 100 150 300) := by
  decide

/-- C6: for `min < max`, `normalise_axis` gives a raw value above `max` the
result of `max`, and a raw value below `min` the result of `min`. -/
theorem normalise_axis_clamps (v min c max : Int) (h : min < max) :
    (v > max → normalise_axis v min c max = normalise_axis max min c max) ∧
      (v < min → normalise_axis v min c max = normalise_axis min min c max) := by
  unfold normalise_axis
  constructor
  · intro hv
    have h1 : ¬ max > max := lt_irrefl _
    have h2 : ¬ max < min := not_lt.mpr h.le
    simp only [if_pos hv, if_neg h1, if_neg h2]
  · intro hv
    have h1 : ¬ v > max := not_lt.mpr (hv.le.trans h.le)
    have h2 : ¬ min > max := not_lt.mpr h.le
    have h3 : ¬ min < min := lt_irrefl _
    simp only [if_pos hv, if_neg h1, if_neg h2, if_neg h3]

/-- Witness of C6 at `v = 5000` and `v = -7`, `min = 0`, `c = 2048`, `max = 4095`. -/
theorem normalise_axis_clamps_witness :
    normalise_axis 5000 0 2048 4095 = normalise_axis 4095 0 2048 4095 ∧
      normalise_axis (-7) 0 2048 4095 = normalise_axis 0 0 2048 4095 :=
  ⟨(normalise_axis_clamps 5000 0 2048 4095 (by decide)).1 (by decide),
   (normalise_axis_clamps (-7) 0 2048 4095 (by decide)).2 (by decide)⟩

/-! ## Normalisation: agreement with 32-bit arithmetic -/

/-- Inside the 32-bit range the reduction is the identity. -/
theorem wrap_int_eq (x : Int) (h : x.natAbs < 2147483648) : wrap_int x = x := by
  unfold wrap_int
  omega

/-- Truncating division does not increase the magnitude. -/
theorem natAbs_tdiv_le (a d : Int) : (a.tdiv d).natAbs ≤ a.natAbs := by
  rw [Int.natAbs_tdiv]
  exact Nat.div_le_self _ _

/-- Magnitude bound of a product. -/
theorem natAbs_mul_le {a b : Int} {A B : Nat} (ha : a.natAbs ≤ A) (hb : b.natAbs ≤ B) :
    (a * b).natAbs ≤ A * B := by
  rw [Int.natAbs_mul]
  exact Nat.mul_le_mul ha hb

/-- With `min`, `c`, `max` of magnitude at most `2^14` (the raw samples are 12-bit
and the default range is `[0, 4095]`) no intermediate result leaves the 32-bit
range, so the 32-bit function is `normalise_axis`, for every `v`. -/
theorem normalise_axis_wrap_eq (v min c max : Int) (hmin : min.natAbs ≤ 16384)
    (hc : c.natAbs ≤ 16384) (hmax : max.natAbs ≤ 16384) :
    normalise_axis_wrap v min c max = normalise_axis v min c max := by
  unfold normalise_axis_wrap normalise_axis
  by_cases hg : c = max ∨ c = min
  · simp only [if_pos hg]
  · simp only [if_neg hg]
    generalize hv : (if (if v > max then max else v) < min then min
      else (if v > max then max else v)) = w
    have hw : w.natAbs ≤ 16384 := by
      rw [← hv]; split_ifs <;> omega
    have hI : ((min + max).tdiv 2).natAbs ≤ 16384 := by
      have := Int.natAbs_tdiv (min + max) 2
      have e : (min + max).natAbs.div (Int.natAbs 2) = (min + max).natAbs / 2 := rfl
      rw [e] at this
      omega
    rw [wrap_int_eq (min + max) (by omega), wrap_int_eq ((min + max).tdiv 2) (by omega)]
    generalize (min + max).tdiv 2 = I at hI ⊢
    rw [wrap_int_eq (w - c) (by omega), wrap_int_eq (max - c) (by omega),
      wrap_int_eq (I - min) (by omega), wrap_int_eq (c - min) (by omega)]
    have hP : ((w - c) * I).natAbs ≤ 32768 * 16384 :=
      natAbs_mul_le (by omega) hI
    have hQ := natAbs_tdiv_le ((w - c) * I) (max - c)
    have hP' : (w * (I - min)).natAbs ≤ 16384 * 32768 :=
      natAbs_mul_le hw (by omega)
    have hQ' := natAbs_tdiv_le (w * (I - min)) (c - min)
    rw [wrap_int_eq ((w - c) * I) (by omega), wrap_int_eq (w * (I - min)) (by omega),
      wrap_int_eq (((w - c) * I).tdiv (max - c)) (by omega),
      wrap_int_eq ((w * (I - min)).tdiv (c - min)) (by omega),
      wrap_int_eq (((w - c) * I).tdiv (max - c) + I) (by omega)]

/-! ## Normalisation on a range starting at 0 -/

/-- Truncating quotient of a non-negative `a ≤ d * q` by a positive `d`. -/
theorem tdiv_bounds {a d q : Int} (ha : 0 ≤ a) (hd : 0 < d) (h : a ≤ d * q) :
    0 ≤ a.tdiv d ∧ a.tdiv d ≤ q := by
  rw [Int.tdiv_eq_ediv ha hd.le]
  refine ⟨Int.ediv_nonneg ha hd.le, ?_⟩
  have : a / d ≤ (d * q) / d := Int.ediv_le_ediv hd h
  rwa [Int.mul_ediv_cancel_left _ hd.ne'] at this

/-- With the lower bound `min = 0` the result of `normalise_axis` lies in
`[0, max]`, for every centre and every raw value. -/
theorem normalise_axis_range_min_zero (v c max : Int) (h : 0 < max) :
    0 ≤ normalise_axis v 0 c max ∧ normalise_axis v 0 c max ≤ max := by
  unfold normalise_axis
  by_cases hg : c = max ∨ c = 0
  · simp only [if_pos hg]
    rcases hg with hg | hg <;> omega
  · simp only [if_neg hg]
    have hg' : c ≠ max ∧ c ≠ 0 := not_or.mp hg
    generalize hv : (if (if v > max then max else v) < 0 then 0
      else (if v > max then max else v)) = w
    have hw : 0 ≤ w ∧ w ≤ max := by
      rw [← hv]; split_ifs <;> omega
    have hI0 : (0 : Int) ≤ ((0 : Int) + max).tdiv 2 := Int.tdiv_nonneg (by omega) (by decide)
    have hI1 : 2 * ((0 : Int) + max).tdiv 2 ≤ max := by
      rw [Int.tdiv_eq_ediv (by omega) (by decide)]; omega
    generalize ((0 : Int) + max).tdiv 2 = I at hI0 hI1 ⊢
    simp only [sub_zero]
    split_ifs with hwc
    · have hb := tdiv_bounds (a := (w - c) * I) (d := max - c) (q := I)
        (mul_nonneg (by omega) hI0) (by omega)
        (mul_le_mul_of_nonneg_right (by omega) hI0)
      omega
    · have hb := tdiv_bounds (a := w * I) (d := c) (q := I)
        (mul_nonneg hw.1 hI0) (by omega)
        (mul_le_mul_of_nonneg_right (by omega) hI0)
      omega

/-! ## Bus read and polling cycle: theorems -/

/-- Two bytes combined big-endian and masked to 12 bits. -/
theorem decode12 (a b : Fin 256) :
    ((a.val <<< 8) ||| b.val) &&& 0xFFF = (a.val * 256 + b.val) % 4096 := by
  have hb : b.val < 2 ^ 8 := b.isLt
  have h1 : (a.val <<< 8) ||| b.val = 2 ^ 8 * a.val + b.val := by
    rw [Nat.shiftLeft_eq, Nat.mul_comm, Nat.mul_add_lt_is_or hb]
  rw [h1, Nat.mul_comm]
  exact Nat.and_pow_two_sub_one_eq_mod _ 12

/-- A failed or short read, bus traffic not suppressed: the cells are left as
they were and the failure count goes up by one. -/
theorem i2cread_failure (g : module_params) (hs : g.suppress_i2c = 0)
    (p : rdfpgajoy_data) (recv : i2c_recv) (hr : recv.ret ≠ 4) (x y : Int)
    (btn : Option Int) :
    rdfpgajoy_i2cread g p recv x y btn =
      ⟨{ p with i2c_failures := p.i2c_failures + 1 }, x, y, btn,
        decide (p.i2c_failures + 1 = 0)⟩ := by
  simp [rdfpgajoy_i2cread, hs, hr]

/-- A successful read, bus traffic not suppressed. -/
theorem i2cread_success (g : module_params) (hs : g.suppress_i2c = 0)
    (p : rdfpgajoy_data) (recv : i2c_recv) (hr : recv.ret = 4) (x y : Int)
    (btn : Option Int) :
    rdfpgajoy_i2cread g p recv x y btn =
      ⟨{ p with i2c_failures := 0 },
        (((recv.buf2.val <<< 8) ||| recv.buf3.val) &&& 0xFFF : Nat),
        (((recv.buf0.val <<< 8) ||| recv.buf1.val) &&& 0xFFF : Nat),
        btn.map (fun _ => (0 : Int)), true⟩ := by
  simp [rdfpgajoy_i2cread, hs, hr]

/-- C5, the code at the failing input: a device on the range `[100, 300]`
calibrated at `(150, 150)` reads the raw sample `(300, 300)` and publishes
`400` on both axes, above `max = 300`. -/
theorem work_publishes_out_of_range :
    data_offset.min < data_offset.max ∧ recv_300.ret = 4 ∧
      (rdfpgajoy_work params_default data_offset recv_300 0).calls =
        [.report_abs ABS_X 400, .report_abs ABS_Y 400, .report_key BTN_THUMBL 0, .sync] ∧
      ¬ ((400 : Int) ≤ data_offset.max) := by
  decide

/-- C7: on a successful 4-byte read with bus traffic not suppressed,
`rdfpgajoy_i2cread` returns true, `y` is the first two bytes and `x` the last
two, each combined big-endian and reduced modulo 4096, and both lie in
`[0, 4095]`. -/
theorem i2cread_decode (g : module_params) (hs : g.suppress_i2c = 0)
    (p : rdfpgajoy_data) (recv : i2c_recv) (hr : recv.ret = 4) (x y : Int)
    (btn : Option Int) :
    (rdfpgajoy_i2cread g p recv x y btn).ret = true ∧
      (rdfpgajoy_i2cread g p recv x y btn).y =
        ((recv.buf0.val * 256 + recv.buf1.val) % 4096 : Nat) ∧
      (rdfpgajoy_i2cread g p recv x y btn).x =
        ((recv.buf2.val * 256 + recv.buf3.val) % 4096 : Nat) ∧
      0 ≤ (rdfpgajoy_i2cread g p recv x y btn).y ∧
      (rdfpgajoy_i2cread g p recv x y btn).y ≤ 4095 ∧
      0 ≤ (rdfpgajoy_i2cread g p recv x y btn).x ∧
      (rdfpgajoy_i2cread g p recv x y btn).x ≤ 4095 := by
  rw [i2cread_success g hs p recv hr x y btn]
  simp only [decode12]
  have hy : (recv.buf0.val * 256 + recv.buf1.val) % 4096 < 4096 :=
    Nat.mod_lt _ (by decide)
  have hx : (recv.buf2.val * 256 + recv.buf3.val) % 4096 < 4096 :=
    Nat.mod_lt _ (by decide)
  refine ⟨trivial, trivial, trivial, ?_, ?_, ?_, ?_⟩ <;> omega

/-- Witness of C7: the payload `ff ff 01 2c` decodes to `y = 0xfff`, `x = 300`. -/
theorem i2cread_decode_witness :
    (rdfpgajoy_i2cread params_default data_default ⟨4, 0xff, 0xff, 0x01, 0x2c⟩ 0 0 none).y
        = 4095 ∧
      (rdfpgajoy_i2cread params_default data_default ⟨4, 0xff, 0xff, 0x01, 0x2c⟩ 0 0 none).x
        = 300 := by
  have h := i2cread_decode params_default rfl data_default ⟨4, 0xff, 0xff, 0x01, 0x2c⟩ rfl
    0 0 none
  exact ⟨h.2.1.trans (by decide), h.2.2.1.trans (by decide)⟩

/-- One failed cycle, bus traffic not suppressed: no call to the input core,
the failure count goes up by one and the delay follows the new count. -/
theorem work_failure (g : module_params) (hs : g.suppress_i2c = 0)
    (p : rdfpgajoy_data) (hn : 0 ≤ p.i2c_failures) (recv : i2c_recv)
    (hr : recv.ret ≠ 4) (btn0 : Int) :
    rdfpgajoy_work g p recv btn0 =
      ⟨{ p with i2c_failures := p.i2c_failures + 1 }, [],
        if p.i2c_failures + 1 < 5 then normal_interval g else degraded_interval g⟩ := by
  have hne : ¬ (p.i2c_failures + 1 = 0) := by omega
  simp [rdfpgajoy_work, i2cread_failure g hs p recv hr, hne]

/-- Delay of one successful cycle, bus traffic not suppressed. -/
theorem work_success_delay (g : module_params) (hs : g.suppress_i2c = 0)
    (p : rdfpgajoy_data) (recv : i2c_recv) (hr : recv.ret = 4) (btn0 : Int) :
    (rdfpgajoy_work g p recv btn0).delay = normal_interval g := by
  simp only [rdfpgajoy_work, i2cread_success g hs p recv hr]
  cases hc : p.calibrate <;> simp

/-- Delays of consecutive failed cycles from a failure count `n ≥ 0`: the cycle
at index `k` sees the count `n + k + 1`. -/
theorem poll_cycles_failure_delay (g : module_params) (hs : g.suppress_i2c = 0)
    (rs : List (i2c_recv × Int)) :
    ∀ (p : rdfpgajoy_data), 0 ≤ p.i2c_failures → (∀ r ∈ rs, r.1.ret ≠ 4) →
      ∀ k, k < rs.length →
        ((poll_cycles g p rs).map work_result.delay)[k]? =
          some (if p.i2c_failures + k + 1 < 5 then normal_interval g
                else degraded_interval g) := by
  induction rs with
  | nil => intro p _ _ k hk; simp at hk
  | cons r rs ih =>
    intro p hn hf k hk
    have hr : r.1.ret ≠ 4 := hf r (List.mem_cons_self _ _)
    have hw := work_failure g hs p hn r.1 hr r.2
    cases k with
    | zero => simp [poll_cycles, hw]
    | succ k =>
      have hk' : k < rs.length := by simpa using hk
      have hf' : ∀ r ∈ rs, r.1.ret ≠ 4 := fun r' h' => hf r' (List.mem_cons_of_mem _ h')
      have := ih { p with i2c_failures := p.i2c_failures + 1 } (by simp; omega) hf' k hk'
      simp only [poll_cycles, hw, List.map_cons, List.getElem?_cons_succ]
      rw [this]
      have e : p.i2c_failures + 1 + (k : Int) + 1 = p.i2c_failures + ((k + 1 : Nat) : Int) + 1 := by
        push_cast; ring
      simp only [e]

/-- C8: from a failure count of 0 with bus traffic not suppressed, the `k`-th of
consecutive failed cycles chooses the normal interval when `k < 5` and the
degraded interval for every `k ≥ 5`; and a cycle whose read succeeds chooses
the normal interval from any state. -/
theorem backoff_schedule (g : module_params) (hs : g.suppress_i2c = 0)
    (p : rdfpgajoy_data) (hp : p.i2c_failures = 0) (rs : List (i2c_recv × Int))
    (hf : ∀ r ∈ rs, r.1.ret ≠ 4) :
    (∀ k, 1 ≤ k → k ≤ rs.length →
        ((poll_cycles g p rs).map work_result.delay)[k - 1]? =
          some (if k < 5 then normal_interval g else degraded_interval g)) ∧
      (∀ (q : rdfpgajoy_data) (recv : i2c_recv) (btn0 : Int), recv.ret = 4 →
        (rdfpgajoy_work g q recv btn0).delay = normal_interval g) := by
  refine ⟨?_, fun q recv btn0 hr => work_success_delay g hs q recv hr btn0⟩
  intro k hk1 hk2
  have h := poll_cycles_failure_delay g hs rs p (by omega) hf (k - 1) (by omega)
  rw [h, hp]
  have e : ((0 : Int) + ((k - 1 : Nat) : Int) + 1 < 5) ↔ k < 5 := by omega
  simp only [e]

/-- Witness of C8 with `HZ = 100` and `poll_rate = 10`: of six failed cycles the
fourth waits 10 ticks and the fifth and sixth 1000; a successful cycle entered
with a failure count of 7 waits 10. -/
theorem backoff_schedule_witness :
    ((poll_cycles params_default data_default (List.replicate 6 (recv_fail, 0))).map
        work_result.delay)[3]? = some (some 10) ∧
      ((poll_cycles params_default data_default (List.replicate 6 (recv_fail, 0))).map
        work_result.delay)[4]? = some (some 1000) ∧
      ((poll_cycles params_default data_default (List.replicate 6 (recv_fail, 0))).map
        work_result.delay)[5]? = some (some 1000) ∧
      (rdfpgajoy_work params_default { data_default with i2c_failures := 7 } recv_300 0).delay
        = some 10 := by
  have hf : ∀ r ∈ List.replicate 6 (recv_fail, (0 : Int)), r.1.ret ≠ 4 := by
    intro r hr
    rw [List.eq_of_mem_replicate hr]
    decide
  have h := backoff_schedule params_default rfl data_default rfl
    (List.replicate 6 (recv_fail, 0)) hf
  exact ⟨(h.1 4 (by decide) (by decide)).trans (by decide),
    (h.1 5 (by decide) (by decide)).trans (by decide),
    (h.1 6 (by decide) (by decide)).trans (by decide),
    (h.2 _ recv_300 0 rfl).trans (by decide)⟩

/-! ## Management interface: theorems -/

/-- C9: `joyside_store` returns `-EINVAL` exactly when the first character is
neither 'l' nor 'r', and then the device state is unchanged; for 'l' or 'r' it
returns `count` and sets `is_rightjoy` to (first character = 'r'). -/
theorem joyside_store_accepts (p : rdfpgajoy_data) (buffer : List Char) (count : Nat) :
    (buffer0 buffer ≠ 'l' ∧ buffer0 buffer ≠ 'r' →
        joyside_store p buffer count = (p, -EINVAL)) ∧
      (buffer0 buffer = 'l' ∨ buffer0 buffer = 'r' →
        (joyside_store p buffer count).2 = (count : Int) ∧
        (joyside_store p buffer count).1.is_rightjoy = decide (buffer0 buffer = 'r')) ∧
      ((joyside_store p buffer count).2 = -EINVAL ↔
        (buffer0 buffer ≠ 'l' ∧ buffer0 buffer ≠ 'r')) := by
  by_cases h : buffer0 buffer ≠ 'l' ∧ buffer0 buffer ≠ 'r'
  · refine ⟨fun _ => by simp only [joyside_store, if_pos h], fun h' => ?_, ?_⟩
    · rcases h' with h' | h'
      · exact absurd h' h.1
      · exact absurd h' h.2
    · simp only [joyside_store, if_pos h]
      exact ⟨fun _ => h, fun _ => trivial⟩
  · have hc : (count : Int) ≠ -EINVAL := by
      have : (0 : Int) ≤ count := Int.ofNat_nonneg _
      simp only [EINVAL]; omega
    refine ⟨fun h' => absurd h' h, fun _ => ?_, ?_⟩
    · simp only [joyside_store, if_neg h, and_self]
    · simp only [joyside_store, if_neg h]
      exact ⟨fun h' => absurd h' hc, fun h' => absurd h' h⟩

/-- Witness of C9 on the default device: "x" is rejected with `-22` and no
change of state, "rx" is accepted with `count = 2` and selects the right side. -/
theorem joyside_store_accepts_witness :
    joyside_store data_default ['x'] 1 = (data_default, -22) ∧
      (joyside_store data_default ['r', 'x'] 2).2 = 2 ∧
      (joyside_store data_default ['r', 'x'] 2).1.is_rightjoy = true :=
  ⟨(joyside_store_accepts data_default ['x'] 1).1 (by decide),
   ((joyside_store_accepts data_default ['r', 'x'] 2).2.1 (Or.inr (by decide))).1,
   ((joyside_store_accepts data_default ['r', 'x'] 2).2.1 (Or.inr (by decide))).2⟩

/-- C10: `raise_events` makes exactly four calls, the two axis reports, the
button report and the sync, with the identifiers of the current side; after
`joyside_store` accepts 'r' on a left-side device the next publish carries the
right-side identifiers, none of which is a left-side identifier. -/
theorem raise_events_side_consistent (p : rdfpgajoy_data) (x y btn : Int) :
    raise_events p x y btn =
        [.report_abs (if p.is_rightjoy then ABS_RX else ABS_X) x,
         .report_abs (if p.is_rightjoy then ABS_RY else ABS_Y) y,
         .report_key (if p.is_rightjoy then BTN_THUMBR else BTN_THUMBL) btn,
         .sync] ∧
      (∀ (buffer : List Char) (count : Nat), p.is_rightjoy = false →
        buffer0 buffer = 'r' →
        (joyside_store p buffer count).2 = (count : Int) ∧
        raise_events (joyside_store p buffer count).1 x y btn =
          [.report_abs ABS_RX x, .report_abs ABS_RY y, .report_key BTN_THUMBR btn, .sync]) ∧
      (ABS_RX ≠ ABS_X ∧ ABS_RX ≠ ABS_Y ∧ ABS_RY ≠ ABS_X ∧ ABS_RY ≠ ABS_Y ∧
        BTN_THUMBR ≠ BTN_THUMBL) := by
  refine ⟨?_, ?_, by decide⟩
  · cases h : p.is_rightjoy <;> simp [raise_events, h]
  · intro buffer count _ hb
    have hn : ¬ (buffer0 buffer ≠ 'l' ∧ buffer0 buffer ≠ 'r') := fun hh => hh.2 hb
    simp [joyside_store, raise_events, if_neg hn, hb]

/-- Witness of C10 on the default left-side device: the publish of `(10, 20, 1)`
before and after the side is switched with "r". -/
theorem raise_events_side_consistent_witness :
    raise_events data_default 10 20 1 =
        [.report_abs ABS_X 10, .report_abs ABS_Y 20, .report_key BTN_THUMBL 1, .sync] ∧
      raise_events (joyside_store data_default ['r'] 1).1 10 20 1 =
        [.report_abs ABS_RX 10, .report_abs ABS_RY 20, .report_key BTN_THUMBR 1, .sync] :=
  ⟨(raise_events_side_consistent data_default 10 20 1).1,
   ((raise_events_side_consistent data_default 10 20 1).2.1 ['r'] 1 rfl (by decide)).2⟩

/-! ## Event injection: theorems -/

/-- The scan of "%d%d%d" converts at most three integers. -/
theorem sscanf_ddd_length_le (buffer : List Char) : (sscanf_ddd buffer).length ≤ 3 := by
  unfold sscanf_ddd
  split
  · simp
  · split
    · simp
    · split <;> simp

/-- C11: `inject_event_store` returns `count` and leaves the device state as it
was for every input; when the scan of "%d%d%d" converts three integers it makes
the four calls of one `raise_events` with exactly those values on the current
side, and when it converts fewer it makes no call. -/
theorem inject_event_store_publishes (p : rdfpgajoy_data) (buffer : List Char)
    (count : Nat) :
    (inject_event_store p buffer count).ret = (count : Int) ∧
      (inject_event_store p buffer count).p = p ∧
      (∀ x y btn : Int, sscanf_ddd buffer = [x, y, btn] →
        (inject_event_store p buffer count).calls = raise_events p x y btn ∧
        (inject_event_store p buffer count).calls =
          [.report_abs (if p.is_rightjoy then ABS_RX else ABS_X) x,
           .report_abs (if p.is_rightjoy then ABS_RY else ABS_Y) y,
           .report_key (if p.is_rightjoy then BTN_THUMBR else BTN_THUMBL) btn,
           .sync]) ∧
      ((sscanf_ddd buffer).length < 3 → (inject_event_store p buffer count).calls = []) ∧
      (sscanf_ddd buffer).length ≤ 3 := by
  refine ⟨?_, ?_, ?_, ?_, sscanf_ddd_length_le buffer⟩
  · unfold inject_event_store; split <;> rfl
  · unfold inject_event_store; split <;> rfl
  · intro x y btn h
    have e : (inject_event_store p buffer count).calls = raise_events p x y btn := by
      simp only [inject_event_store, h]
    refine ⟨e, ?_⟩
    rw [e]
    cases hr : p.is_rightjoy <;> simp [raise_events, hr]
  · intro h
    unfold inject_event_store
    split
    · next x y btn heq => rw [heq] at h; simp at h
    · rfl

/-- Witness of C11 on the default left-side device: "10 20 1" publishes
`(10, 20, 1)` unchanged, "10 20" publishes nothing; both return `count`. -/
theorem inject_event_store_publishes_witness :
    (inject_event_store data_default ['1', '0', ' ', '2', '0', ' ', '1'] 7).calls =
        [.report_abs ABS_X 10, .report_abs ABS_Y 20, .report_key BTN_THUMBL 1, .sync] ∧
      (inject_event_store data_default ['1', '0', ' ', '2', '0', ' ', '1'] 7).ret = 7 ∧
      (inject_event_store data_default ['1', '0', ' ', '2', '0'] 5).calls = [] ∧
      (inject_event_store data_default ['1', '0', ' ', '2', '0'] 5).ret = 5 :=
  ⟨((inject_event_store_publishes data_default ['1', '0', ' ', '2', '0', ' ', '1'] 7).2.2.1
      10 20 1 (by decide)).2,
   (inject_event_store_publishes data_default ['1', '0', ' ', '2', '0', ' ', '1'] 7).1,
   (inject_event_store_publishes data_default ['1', '0', ' ', '2', '0'] 5).2.2.2.1 (by decide),
   (inject_event_store_publishes data_default ['1', '0', ' ', '2', '0'] 5).1⟩

/-! ## Division by zero -/

/-- C12: with every division guarded, `normalise_axis` never reaches the
division-by-zero branch and returns the value of the unguarded function, for
all `v`, `min`, `c`, `max`; past the degenerate-centre guard both divisors
`max - c` and `c - min` are non-zero, also when reduced to 32 bits. -/
theorem normalise_axis_no_div_zero (v min c max : Int) :
    normalise_axis_checked v min c max = some (normalise_axis v min c max) ∧
      (¬ (c = max ∨ c = min) → max - c ≠ 0 ∧ c - min ≠ 0) ∧
      (int_range min → int_range c → int_range max → ¬ (c = max ∨ c = min) →
        wrap_int (max - c) ≠ 0 ∧ wrap_int (c - min) ≠ 0) := by
  refine ⟨?_, ?_, ?_⟩
  · unfold normalise_axis_checked normalise_axis
    by_cases hg : c = max ∨ c = min
    · simp [c_div, hg]
    · have hg' : c ≠ max ∧ c ≠ min := not_or.mp hg
      have h1 : max - c ≠ 0 := fun h => hg'.1 (by omega)
      have h2 : c - min ≠ 0 := fun h => hg'.2 (by omega)
      have h0 : ¬ ((2 : Int) = 0) := by decide
      simp only [c_div, if_neg hg, if_neg h1, if_neg h2, if_neg h0]
      split_ifs <;> rfl
  · intro hg
    have hg' : c ≠ max ∧ c ≠ min := not_or.mp hg
    exact ⟨fun h => hg'.1 (by omega), fun h => hg'.2 (by omega)⟩
  · intro hmin hc hmax hg
    have hg' : c ≠ max ∧ c ≠ min := not_or.mp hg
    unfold int_range at hmin hc hmax
    unfold wrap_int
    constructor <;> omega

/-- Witness of C12 at the default calibration `(0, 2048, 4095)` and raw 5000. -/
theorem normalise_axis_no_div_zero_witness :
    normalise_axis_checked 5000 0 2048 4095 = some 4094 ∧
      wrap_int (4095 - 2048) ≠ 0 ∧ wrap_int (2048 - 0) ≠ 0 :=
  ⟨(normalise_axis_no_div_zero 5000 0 2048 4095).1.trans (by decide),
   (normalise_axis_no_div_zero 5000 0 2048 4095).2.2
     (by unfold int_range; omega) (by unfold int_range; omega)
     (by unfold int_range; omega) (by decide)⟩

/-! ## Normalisation on a range starting at 0: monotonicity and fixed points -/

/-- Truncating division of non-negative numerators by a positive divisor is
monotone. -/
theorem tdiv_mono {a b d : Int} (ha : 0 ≤ a) (hab : a ≤ b) (hd : 0 < d) :
    a.tdiv d ≤ b.tdiv d := by
  rw [Int.tdiv_eq_ediv ha hd.le, Int.tdiv_eq_ediv (ha.trans hab) hd.le]
  exact Int.ediv_le_ediv hd hab

/-- Over the mathematical integers, with `min = 0` and `max > 0`,
`normalise_axis` is monotone in the raw value for every centre. -/
theorem normalise_axis_monotone_min_zero (max c v1 v2 : Int) (hmax : 0 < max)
    (hv : v1 < v2) :
    normalise_axis v1 0 c max ≤ normalise_axis v2 0 c max := by
  unfold normalise_axis
  by_cases hg : c = max ∨ c = 0
  · simp only [if_pos hg, le_refl]
  · simp only [if_neg hg]
    have hg' : c ≠ max ∧ c ≠ 0 := not_or.mp hg
    generalize h1 : (if (if v1 > max then max else v1) < 0 then 0
      else (if v1 > max then max else v1)) = w1
    generalize h2 : (if (if v2 > max then max else v2) < 0 then 0
      else (if v2 > max then max else v2)) = w2
    have hw1 : 0 ≤ w1 ∧ w1 ≤ max := by
      rw [← h1]; split_ifs <;> omega
    have hw2 : 0 ≤ w2 ∧ w2 ≤ max := by
      rw [← h2]; split_ifs <;> omega
    have hw : w1 ≤ w2 := by
      rw [← h1, ← h2]; split_ifs <;> omega
    have hI0 : (0 : Int) ≤ ((0 : Int) + max).tdiv 2 := Int.tdiv_nonneg (by omega) (by decide)
    generalize ((0 : Int) + max).tdiv 2 = I at hI0 ⊢
    simp only [sub_zero]
    by_cases hc1 : w1 > c
    · have hc2 : w2 > c := by omega
      simp only [if_pos hc1, if_pos hc2]
      have := tdiv_mono (a := (w1 - c) * I) (b := (w2 - c) * I) (d := max - c)
        (mul_nonneg (by omega) hI0) (mul_le_mul_of_nonneg_right (by omega) hI0) (by omega)
      omega
    · by_cases hc2 : w2 > c
      · simp only [if_neg hc1, if_pos hc2]
        have hlo := tdiv_bounds (a := w1 * I) (d := c) (q := I)
          (mul_nonneg hw1.1 hI0) (by omega) (mul_le_mul_of_nonneg_right (by omega) hI0)
        have hhi : 0 ≤ ((w2 - c) * I).tdiv (max - c) :=
          Int.tdiv_nonneg (mul_nonneg (by omega) hI0) (by omega)
        omega
      · simp only [if_neg hc1, if_neg hc2]
        exact tdiv_mono (mul_nonneg hw1.1 hI0) (mul_le_mul_of_nonneg_right hw hI0) (by omega)

/-- Over the mathematical integers, with `min = 0` and `0 < c < max`, the centre
maps to `max / 2`, `0` to `0` and `max` to `2 * (max / 2)` (truncating
division), which is `max` for an even `max` and `max - 1` for an odd one. -/
theorem normalise_axis_fixed_points_min_zero (c max : Int) (hc : 0 < c) (hcm : c < max) :
    normalise_axis c 0 c max = max.tdiv 2 ∧
      normalise_axis 0 0 c max = 0 ∧
      normalise_axis max 0 c max = 2 * max.tdiv 2 ∧
      (max % 2 = 0 → 2 * max.tdiv 2 = max) ∧
      (max % 2 = 1 → 2 * max.tdiv 2 = max - 1) := by
  have hg : ¬ (c = max ∨ c = 0) := by omega
  have hI : max.tdiv 2 = max / 2 := Int.tdiv_eq_ediv (by omega) (by decide)
  refine ⟨?_, ?_, ?_, ?_, ?_⟩
  · unfold normalise_axis
    have h1 : ¬ c > max := by omega
    have h2 : ¬ c < 0 := by omega
    have h3 : ¬ c > c := lt_irrefl _
    simp only [if_neg hg, if_neg h1, if_neg h2, if_neg h3, sub_zero, zero_add]
    exact Int.mul_tdiv_cancel_left _ (by omega)
  · unfold normalise_axis
    have h1 : ¬ (0 : Int) > max := by omega
    have h2 : ¬ (0 : Int) < 0 := lt_irrefl _
    have h3 : ¬ (0 : Int) > c := by omega
    simp only [if_neg hg, if_neg h1, if_neg h2, if_neg h3, zero_mul, Int.zero_tdiv]
  · unfold normalise_axis
    have h1 : ¬ max > max := lt_irrefl _
    have h2 : ¬ max < 0 := by omega
    have h3 : max > c := hcm
    simp only [if_neg hg, if_neg h1, if_neg h2, if_pos h3, zero_add]
    rw [Int.mul_tdiv_cancel_left _ (by omega : max - c ≠ 0)]
    ring
  · intro h; rw [hI]; omega
  · intro h; rw [hI]; omega

/-! ## Normalisation on a range starting at 0: the 32-bit function -/

/-- Inside the range of a C `int` the reduction to 32 bits is the identity. -/
theorem wrap_int_id (x : Int) (h : int_range x) : wrap_int x = x := by
  unfold int_range at h
  unfold wrap_int
  omega

/-- Every range end up to 65535 with a centre that is not negative keeps the
products inside a C `int`; the default range `[0, 4095]` is of this kind. -/
theorem products_fit_of_le (c max : Int) (hc : 0 ≤ c) (hmax : 0 < max)
    (hle : max ≤ 65535) : products_fit c max := by
  have hI : max.tdiv 2 = max / 2 := Int.tdiv_eq_ediv hmax.le (by decide)
  have hI0 : 0 ≤ max / 2 := by omega
  have hI1 : max / 2 ≤ 32767 := by omega
  have key : ∀ a : Int, 0 ≤ a → a ≤ max → a * (max / 2) < 2147483648 := by
    intro a ha ham
    have h1 : a * (max / 2) ≤ 65535 * (max / 2) :=
      mul_le_mul_of_nonneg_right (by omega) hI0
    omega
  refine ⟨fun h => ?_, fun h => ?_⟩
  · rw [hI]; exact key _ (by omega) (by omega)
  · rw [hI]; exact key _ (le_min hc hmax.le) (min_le_right _ _)

/-- On a range starting at 0, when the products fit a C `int` the 32-bit function
is `normalise_axis`, for every raw value. -/
theorem normalise_axis_wrap_eq_min_zero (v c max : Int) (hmax : 0 < max)
    (hmr : int_range max) (hcr : int_range c) (hfit : products_fit c max) :
    normalise_axis_wrap v 0 c max = normalise_axis v 0 c max := by
  unfold int_range at hmr hcr
  unfold normalise_axis_wrap normalise_axis
  by_cases hg : c = max ∨ c = 0
  · simp only [if_pos hg]
  · simp only [if_neg hg]
    have hg' : c ≠ max ∧ c ≠ 0 := not_or.mp hg
    generalize hv : (if (if v > max then max else v) < 0 then 0
      else (if v > max then max else v)) = w
    have hw : 0 ≤ w ∧ w ≤ max := by
      rw [← hv]; split_ifs <;> omega
    have hIe : ((0 : Int) + max).tdiv 2 = max.tdiv 2 := by rw [zero_add]
    have hI : max.tdiv 2 = max / 2 := Int.tdiv_eq_ediv hmax.le (by decide)
    rw [wrap_int_id (0 + max) (by unfold int_range; omega), hIe,
      wrap_int_id (max.tdiv 2) (by unfold int_range; omega)]
    have hI0 : 0 ≤ max.tdiv 2 := by omega
    have hI2 : 2 * max.tdiv 2 ≤ max := by omega
    obtain ⟨hup, hlo⟩ := hfit
    generalize max.tdiv 2 = I at hI0 hI2 hup hlo ⊢
    simp only [sub_zero]
    rw [wrap_int_id I (by unfold int_range; omega), wrap_int_id c (by unfold int_range; omega)]
    by_cases hwc : w > c
    · simp only [if_pos hwc]
      by_cases hz : I = 0
      · subst hz
        simp [wrap_int]
      · have hI1 : 1 ≤ I := by omega
        have hcm : c < max := by omega
        have hspan : max - c ≤ (max - c) * I := by
          have := mul_le_mul_of_nonneg_left hI1 (by omega : (0 : Int) ≤ max - c)
          omega
        have hup' := hup hcm
        have hprod : (w - c) * I ≤ (max - c) * I :=
          mul_le_mul_of_nonneg_right (by omega) hI0
        have hprod0 : 0 ≤ (w - c) * I := mul_nonneg (by omega) hI0
        have hq := tdiv_bounds (a := (w - c) * I) (d := max - c) (q := I) hprod0 (by omega)
          hprod
        rw [wrap_int_id (w - c) (by unfold int_range; omega),
          wrap_int_id (max - c) (by unfold int_range; omega),
          wrap_int_id ((w - c) * I) (by unfold int_range; omega),
          wrap_int_id (((w - c) * I).tdiv (max - c)) (by unfold int_range; omega),
          wrap_int_id (((w - c) * I).tdiv (max - c) + I) (by unfold int_range; omega)]
    · simp only [if_neg hwc]
      have hc0 : 0 < c := by omega
      have hlo' := hlo hc0
      have hprod : w * I ≤ min c max * I :=
        mul_le_mul_of_nonneg_right (le_min (by omega) hw.2) hI0
      have hprod0 : 0 ≤ w * I := mul_nonneg hw.1 hI0
      have hq0 : 0 ≤ (w * I).tdiv c := Int.tdiv_nonneg hprod0 hc0.le
      have hq1 : ((w * I).tdiv c).natAbs ≤ (w * I).natAbs := by
        rw [Int.natAbs_tdiv]; exact Nat.div_le_self _ _
      rw [wrap_int_id (w * I) (by unfold int_range; omega),
        wrap_int_id ((w * I).tdiv c) (by unfold int_range; omega)]

/-- C18, as stated, fails on the 32-bit arithmetic of the code: with `min = 0`,
`max = 2000000` and the centre `1000000`, the raw values `2147 < 2148` are
mapped to `2147` and `-2146`, the product `2148 * 1000000` not fitting an `int`. -/
theorem normalise_axis_wrap_monotone_counterexample :
    (0 : Int) < 2000000 ∧ (2147 : Int) < 2148 ∧
      normalise_axis_wrap 2147 0 1000000 2000000 = 2147 ∧
      normalise_axis_wrap 2148 0 1000000 2000000 = -2146 ∧
      ¬ (normalise_axis_wrap 2147 0 1000000 2000000 ≤
          normalise_axis_wrap 2148 0 1000000 2000000) := by
  decide

/-- C18, amended: on the 32-bit arithmetic of the code, with `min = 0`, for every
`max > 0` and centre `c` in the range of an `int`, inside or outside `[0, max]`,
whose products fit an `int` (`products_fit`), `normalise_axis` is monotone in
the raw value. -/
theorem normalise_axis_wrap_monotone_min_zero (max c v1 v2 : Int) (hmax : 0 < max)
    (hmr : int_range max) (hcr : int_range c) (hfit : products_fit c max)
    (hv : v1 < v2) :
    normalise_axis_wrap v1 0 c max ≤ normalise_axis_wrap v2 0 c max := by
  rw [normalise_axis_wrap_eq_min_zero v1 c max hmax hmr hcr hfit,
    normalise_axis_wrap_eq_min_zero v2 c max hmax hmr hcr hfit]
  exact normalise_axis_monotone_min_zero max c v1 v2 hmax hv

/-- Witness of C18, amended: the default range with the centre at 2048 and with
a centre above the range, and the range `[0, 65535]` with the centre 40000. -/
theorem normalise_axis_wrap_monotone_min_zero_witness :
    normalise_axis_wrap 2048 0 2048 4095 ≤ normalise_axis_wrap 2049 0 2048 4095 ∧
      normalise_axis_wrap 10 0 5000 4095 ≤ normalise_axis_wrap 4000 0 5000 4095 ∧
      normalise_axis_wrap 40000 0 40000 65535 ≤ normalise_axis_wrap 40001 0 40000 65535 :=
  ⟨normalise_axis_wrap_monotone_min_zero 4095 2048 2048 2049 (by decide)
      (by unfold int_range; decide) (by unfold int_range; decide)
      (by unfold products_fit; decide) (by decide),
   normalise_axis_wrap_monotone_min_zero 4095 5000 10 4000 (by decide)
      (by unfold int_range; decide) (by unfold int_range; decide)
      (by unfold products_fit; decide) (by decide),
   normalise_axis_wrap_monotone_min_zero 65535 40000 40000 40001 (by decide)
      (by unfold int_range; decide) (by unfold int_range; decide)
      (by unfold products_fit; decide) (by decide)⟩

/-- C19, as stated, fails on the 32-bit arithmetic of the code: with `min = 0`,
`max = 3000000` and the centre `4095`, the centre is mapped to `451167`, not to
`max / 2 = 1500000`, and `max` to `1500441`, not to `2 * (max / 2) = 3000000`. -/
theorem normalise_axis_wrap_fixed_points_counterexample :
    (0 : Int) < 4095 ∧ (4095 : Int) < 3000000 ∧
      normalise_axis_wrap 4095 0 4095 3000000 = 451167 ∧
      (3000000 : Int).tdiv 2 = 1500000 ∧
      normalise_axis_wrap 3000000 0 4095 3000000 = 1500441 ∧
      ¬ (normalise_axis_wrap 4095 0 4095 3000000 = (3000000 : Int).tdiv 2 ∧
          normalise_axis_wrap 0 0 4095 3000000 = 0 ∧
          normalise_axis_wrap 3000000 0 4095 3000000 = 2 * (3000000 : Int).tdiv 2) := by
  decide

/-- C19, amended: on the 32-bit arithmetic of the code, with `min = 0`, for every
`max` in the range of an `int` and centre `0 < c < max` whose products
`c * (max / 2)` and `(max - c) * (max / 2)` fit an `int` (`products_fit`), the
centre maps to `max / 2`, `0` to `0` and `max` to `2 * (max / 2)` (truncating
division), which is `max` for an even `max` and `max - 1` for an odd one. -/
theorem normalise_axis_wrap_fixed_points_min_zero (c max : Int) (hc : 0 < c)
    (hcm : c < max) (hmr : int_range max) (hfit : products_fit c max) :
    normalise_axis_wrap c 0 c max = max.tdiv 2 ∧
      normalise_axis_wrap 0 0 c max = 0 ∧
      normalise_axis_wrap max 0 c max = 2 * max.tdiv 2 ∧
      (max % 2 = 0 → 2 * max.tdiv 2 = max) ∧
      (max % 2 = 1 → 2 * max.tdiv 2 = max - 1) := by
  have hcr : int_range c := by
    unfold int_range at hmr ⊢
    omega
  have hmax : 0 < max := by omega
  rw [normalise_axis_wrap_eq_min_zero c c max hmax hmr hcr hfit,
    normalise_axis_wrap_eq_min_zero 0 c max hmax hmr hcr hfit,
    normalise_axis_wrap_eq_min_zero max c max hmax hmr hcr hfit]
  exact normalise_axis_fixed_points_min_zero c max hc hcm

/-- Witness of C19, amended, at `c = 2048`, `max = 4095`: the values 2047, 0 and
4094. -/
theorem normalise_axis_wrap_fixed_points_min_zero_witness :
    normalise_axis_wrap 2048 0 2048 4095 = 2047 ∧ normalise_axis_wrap 0 0 2048 4095 = 0 ∧
      normalise_axis_wrap 4095 0 2048 4095 = 4094 :=
  ⟨(normalise_axis_wrap_fixed_points_min_zero 2048 4095 (by decide) (by decide)
      (by unfold int_range; decide) (by unfold products_fit; decide)).1.trans (by decide),
   (normalise_axis_wrap_fixed_points_min_zero 2048 4095 (by decide) (by decide)
      (by unfold int_range; decide) (by unfold products_fit; decide)).2.1,
   (normalise_axis_wrap_fixed_points_min_zero 2048 4095 (by decide) (by decide)
      (by unfold int_range; decide) (by unfold products_fit; decide)).2.2.1.trans
      (by decide)⟩

/-! ## Polling cycle: counter, calibration, button -/

/-- One successful cycle, bus traffic not suppressed: the whole result.  The
sample is decoded, a pending calibration takes it as the centre, and the
normalised sample is published with the button value 0. -/
theorem work_success (g : module_params) (hs : g.suppress_i2c = 0)
    (p : rdfpgajoy_data) (recv : i2c_recv) (hr : recv.ret = 4) (btn0 : Int) :
    rdfpgajoy_work g p recv btn0 =
      ⟨(if p.calibrate then
          { p with
            i2c_failures := 0
            center_x := (((recv.buf2.val <<< 8) ||| recv.buf3.val) &&& 0xFFF : Nat)
            center_y := (((recv.buf0.val <<< 8) ||| recv.buf1.val) &&& 0xFFF : Nat)
            calibrate := false }
        else { p with i2c_failures := 0 }),
       raise_events p
        (normalise_axis (((recv.buf2.val <<< 8) ||| recv.buf3.val) &&& 0xFFF : Nat) p.min
          (if p.calibrate then
            ((((recv.buf2.val <<< 8) ||| recv.buf3.val) &&& 0xFFF : Nat) : Int)
           else p.center_x) p.max)
        (normalise_axis (((recv.buf0.val <<< 8) ||| recv.buf1.val) &&& 0xFFF : Nat) p.min
          (if p.calibrate then
            ((((recv.buf0.val <<< 8) ||| recv.buf1.val) &&& 0xFFF : Nat) : Int)
           else p.center_y) p.max)
        0,
       normal_interval g⟩ := by
  simp only [rdfpgajoy_work, i2cread_success g hs p recv hr]
  cases hc : p.calibrate <;> simp [raise_events]

/-- C14: a failed cycle, bus traffic not suppressed, from a state whose failure
count is not negative: no call to the input core, and `calibrate`, the centre,
the side, `min`, `max`, `fuzz` and the input capabilities are as before; only
the failure count changes, by one. -/
theorem work_failure_frame (g : module_params) (hs : g.suppress_i2c = 0)
    (p : rdfpgajoy_data) (hn : 0 ≤ p.i2c_failures) (recv : i2c_recv)
    (hr : recv.ret ≠ 4) (btn0 : Int) :
    (rdfpgajoy_work g p recv btn0).calls = [] ∧
      (rdfpgajoy_work g p recv btn0).p = { p with i2c_failures := p.i2c_failures + 1 } ∧
      (rdfpgajoy_work g p recv btn0).p.calibrate = p.calibrate ∧
      (rdfpgajoy_work g p recv btn0).p.center_x = p.center_x ∧
      (rdfpgajoy_work g p recv btn0).p.center_y = p.center_y ∧
      (rdfpgajoy_work g p recv btn0).p.is_rightjoy = p.is_rightjoy ∧
      (rdfpgajoy_work g p recv btn0).p.min = p.min ∧
      (rdfpgajoy_work g p recv btn0).p.max = p.max ∧
      (rdfpgajoy_work g p recv btn0).p.fuzz = p.fuzz := by
  rw [work_failure g hs p hn recv hr btn0]
  exact ⟨rfl, rfl, rfl, rfl, rfl, rfl, rfl, rfl, rfl⟩

/-- Witness of C14: a failed read on the default device with a calibration
pending leaves it pending and publishes nothing. -/
theorem work_failure_frame_witness :
    (rdfpgajoy_work params_default { data_default with calibrate := true } recv_fail 0).calls
        = [] ∧
      (rdfpgajoy_work params_default { data_default with calibrate := true } recv_fail 0).p.calibrate
        = true ∧
      (rdfpgajoy_work params_default { data_default with calibrate := true } recv_fail 0).p.i2c_failures
        = 1 := by
  have h := work_failure_frame params_default rfl { data_default with calibrate := true }
    (by decide) recv_fail (by decide) 0
  exact ⟨h.1, h.2.2.1, by rw [h.2.1]; rfl⟩

/-- C15: from a failure count `n ≥ 0`, bus traffic not suppressed, one call of
`rdfpgajoy_i2cread` leaves the count at 0 and returns true when the 4-byte read
succeeds, and leaves it at `n + 1` and returns false when it fails or is short. -/
theorem i2cread_counter_step (g : module_params) (hs : g.suppress_i2c = 0)
    (p : rdfpgajoy_data) (hn : 0 ≤ p.i2c_failures) (recv : i2c_recv) (x y : Int)
    (btn : Option Int) :
    (recv.ret = 4 →
        (rdfpgajoy_i2cread g p recv x y btn).p.i2c_failures = 0 ∧
        (rdfpgajoy_i2cread g p recv x y btn).ret = true) ∧
      (recv.ret ≠ 4 →
        (rdfpgajoy_i2cread g p recv x y btn).p.i2c_failures = p.i2c_failures + 1 ∧
        (rdfpgajoy_i2cread g p recv x y btn).ret = false) := by
  constructor
  · intro hr
    rw [i2cread_success g hs p recv hr x y btn]
    exact ⟨rfl, rfl⟩
  · intro hr
    rw [i2cread_failure g hs p recv hr x y btn]
    have hne : ¬ (p.i2c_failures + 1 = 0) := by omega
    exact ⟨rfl, by simp [hne]⟩

/-- Witness of C15 from a failure count of 7: a success gives 0 and true, a
failure gives 8 and false. -/
theorem i2cread_counter_step_witness :
    (rdfpgajoy_i2cread params_default { data_default with i2c_failures := 7 } recv_300
        0 0 none).p.i2c_failures = 0 ∧
      (rdfpgajoy_i2cread params_default { data_default with i2c_failures := 7 } recv_300
        0 0 none).ret = true ∧
      (rdfpgajoy_i2cread params_default { data_default with i2c_failures := 7 } recv_fail
        0 0 none).p.i2c_failures = 8 ∧
      (rdfpgajoy_i2cread params_default { data_default with i2c_failures := 7 } recv_fail
        0 0 none).ret = false := by
  have h := i2cread_counter_step params_default rfl { data_default with i2c_failures := 7 }
    (by decide)
  exact ⟨((h recv_300 0 0 none).1 rfl).1, ((h recv_300 0 0 none).1 rfl).2,
    ((h recv_fail 0 0 none).2 (by decide)).1.trans (by decide),
    ((h recv_fail 0 0 none).2 (by decide)).2⟩

/-- C16: after a cycle whose read succeeds, bus traffic not suppressed, the
calibrate flag is false; if it was set, the centre is the raw sample of this
read, `x` from bytes 2-3 and `y` from bytes 0-1, not normalised; if it was
clear, the centre is unchanged. -/
theorem work_calibrates (g : module_params) (hs : g.suppress_i2c = 0)
    (p : rdfpgajoy_data) (recv : i2c_recv) (hr : recv.ret = 4) (btn0 : Int) :
    (rdfpgajoy_work g p recv btn0).p.calibrate = false ∧
      (p.calibrate = true →
        (rdfpgajoy_work g p recv btn0).p.center_x =
          (rdfpgajoy_i2cread g p recv 0 0 (some btn0)).x ∧
        (rdfpgajoy_work g p recv btn0).p.center_y =
          (rdfpgajoy_i2cread g p recv 0 0 (some btn0)).y ∧
        (rdfpgajoy_work g p recv btn0).p.center_x =
          ((recv.buf2.val * 256 + recv.buf3.val) % 4096 : Nat) ∧
        (rdfpgajoy_work g p recv btn0).p.center_y =
          ((recv.buf0.val * 256 + recv.buf1.val) % 4096 : Nat)) ∧
      (p.calibrate = false →
        (rdfpgajoy_work g p recv btn0).p.center_x = p.center_x ∧
        (rdfpgajoy_work g p recv btn0).p.center_y = p.center_y) := by
  rw [work_success g hs p recv hr btn0, i2cread_success g hs p recv hr]
  cases hc : p.calibrate
  · simp
  · simp [decode12]

/-- Witness of C16 on the default device: with a calibration pending the read
of `(300, 300)` becomes the centre; without one the centre stays `(2047, 2047)`. -/
theorem work_calibrates_witness :
    (rdfpgajoy_work params_default { data_default with calibrate := true } recv_300 0).p.calibrate
        = false ∧
      (rdfpgajoy_work params_default { data_default with calibrate := true } recv_300 0).p.center_x
        = 300 ∧
      (rdfpgajoy_work params_default data_default recv_300 0).p.center_x = 2047 := by
  have h1 := work_calibrates params_default rfl { data_default with calibrate := true }
    recv_300 rfl 0
  have h2 := work_calibrates params_default rfl data_default recv_300 rfl 0
  exact ⟨h1.1, (h1.2.1 rfl).2.2.1.trans (by decide), (h2.2.2 rfl).1⟩

/-- C20: a cycle whose read succeeds, bus traffic not suppressed, publishes the
button value 0, whatever the payload bytes and the prior content of `btn`. -/
theorem work_button_zero (g : module_params) (hs : g.suppress_i2c = 0)
    (p : rdfpgajoy_data) (recv : i2c_recv) (hr : recv.ret = 4) (btn0 : Int) :
    (rdfpgajoy_i2cread g p recv 0 0 (some btn0)).btn = some 0 ∧
      (∃ x y : Int, (rdfpgajoy_work g p recv btn0).calls =
        [.report_abs (if p.is_rightjoy then ABS_RX else ABS_X) x,
         .report_abs (if p.is_rightjoy then ABS_RY else ABS_Y) y,
         .report_key (if p.is_rightjoy then BTN_THUMBR else BTN_THUMBL) 0,
         .sync]) ∧
      (∀ code value, input_call.report_key code value ∈ (rdfpgajoy_work g p recv btn0).calls →
        value = 0) := by
  rw [work_success g hs p recv hr btn0, i2cread_success g hs p recv hr]
  refine ⟨rfl, ?_, ?_⟩
  · cases hj : p.is_rightjoy <;> simp [raise_events, hj]
  · intro code value h
    cases hj : p.is_rightjoy <;> simp [raise_events, hj] at h <;> exact h.2

/-- Witness of C20: the payload `ff ff ff ff` with `btn` holding 1 on entry
still publishes the button value 0. -/
theorem work_button_zero_witness :
    (rdfpgajoy_work params_default data_default ⟨4, 0xff, 0xff, 0xff, 0xff⟩ 1).calls =
        [.report_abs ABS_X 4094, .report_abs ABS_Y 4094, .report_key BTN_THUMBL 0, .sync] ∧
      ∀ code value, input_call.report_key code value ∈
        (rdfpgajoy_work params_default data_default ⟨4, 0xff, 0xff, 0xff, 0xff⟩ 1).calls →
        value = 0 :=
  ⟨by decide,
   (work_button_zero params_default rfl data_default ⟨4, 0xff, 0xff, 0xff, 0xff⟩ rfl 1).2.2⟩

/-! ## Invariants of the runs from start-up -/

/-- What a successful probe leaves in the device data: the centre at the
midpoint of the range, a failure count of 0 and the capabilities of the
configured side applied to a fresh input device. -/
theorem probe_data (g : module_params) (np : Option device_node) (env : probe_env)
    (p0 : rdfpgajoy_data) (hp : (rdfpgajoy_probe g np env).p = some p0) :
    p0.center_x = (p0.min + p0.max).tdiv 2 ∧ p0.center_y = p0.center_x ∧
      p0.i2c_failures = 0 ∧
      p0.input_dev = rdfpgajoy_input_caps input_dev_zero p0.is_rightjoy p0.min p0.max p0.fuzz := by
  unfold rdfpgajoy_probe at hp
  by_cases h1 : (!env.kzalloc_ok) = true
  · simp [h1] at hp
  by_cases h2 : env.sysfs_error ≠ 0
  · simp [h1, h2] at hp
  by_cases h3 : (!env.input_alloc_ok) = true
  · simp [h1, h2, h3] at hp
  by_cases h4 : env.register_error ≠ 0
  · simp [h1, h2, h3, h4] at hp
  simp only [if_neg h1, if_neg h2, if_neg h3, if_neg h4, Option.some.injEq] at hp
  subst hp
  rcases np with _ | ⟨cal, right, pr, jmin, jmax, jfuzz⟩
  · exact ⟨rfl, rfl, rfl, rfl⟩
  · rcases pr with _ | pr <;> rcases jmin with _ | jmin <;> rcases jmax with _ | jmax <;>
      rcases jfuzz with _ | jfuzz <;> refine ⟨?_, ?_, ?_, ?_⟩ <;> dsimp only

/-- What one run of the work item can change, for any module parameters and bus
outcome: the range, fuzz, side and capabilities stay; the centre stays or
becomes a pair of values in `[0, 4095]`; a non-negative failure count stays
non-negative. -/
theorem work_effect (g : module_params) (p : rdfpgajoy_data) (recv : i2c_recv)
    (btn0 : Int) :
    (rdfpgajoy_work g p recv btn0).p.min = p.min ∧
      (rdfpgajoy_work g p recv btn0).p.max = p.max ∧
      (rdfpgajoy_work g p recv btn0).p.fuzz = p.fuzz ∧
      (rdfpgajoy_work g p recv btn0).p.is_rightjoy = p.is_rightjoy ∧
      (rdfpgajoy_work g p recv btn0).p.input_dev = p.input_dev ∧
      (((rdfpgajoy_work g p recv btn0).p.center_x = p.center_x ∧
          (rdfpgajoy_work g p recv btn0).p.center_y = p.center_y) ∨
        (0 ≤ (rdfpgajoy_work g p recv btn0).p.center_x ∧
          (rdfpgajoy_work g p recv btn0).p.center_x ≤ 4095 ∧
          0 ≤ (rdfpgajoy_work g p recv btn0).p.center_y ∧
          (rdfpgajoy_work g p recv btn0).p.center_y ≤ 4095)) ∧
      (0 ≤ p.i2c_failures → 0 ≤ (rdfpgajoy_work g p recv btn0).p.i2c_failures) := by
  have hx : (recv.buf2.val * 256 + recv.buf3.val) % 4096 < 4096 := Nat.mod_lt _ (by decide)
  have hy : (recv.buf0.val * 256 + recv.buf1.val) % 4096 < 4096 := Nat.mod_lt _ (by decide)
  by_cases hs : g.suppress_i2c = 0
  · by_cases hr : recv.ret = 4
    · rw [work_success g hs p recv hr btn0]
      cases hc : p.calibrate
      · simp
      · simp only [if_true, decode12]
        refine ⟨trivial, trivial, trivial, trivial, trivial, Or.inr ⟨?_, ?_, ?_, ?_⟩,
          fun _ => le_refl _⟩ <;> omega
    · simp only [rdfpgajoy_work, i2cread_failure g hs p recv hr]
      split_ifs <;> simp <;> omega
  · simp only [rdfpgajoy_work, rdfpgajoy_i2cread, ne_eq, hs, not_false_eq_true, if_true]
    split_ifs <;> simp

/-- The capability bits after `rdfpgajoy_input_caps`, for any prior bits. -/
theorem input_caps_bits (input : input_dev) (s : Bool) (min max fuzz : Int) :
    side_armed (rdfpgajoy_input_caps input s min max fuzz) s = true ∧
      side_clear (rdfpgajoy_input_caps input s min max fuzz) (!s) = true := by
  cases s <;>
    simp [side_armed, side_clear, rdfpgajoy_input_caps, input_set_abs_params, set_bit,
      clear_bit, ABS_X, ABS_Y, ABS_RX, ABS_RY, BTN_THUMBL, BTN_THUMBR]

/-- The midpoint `(min + max) / 2` of a range lies in the range. -/
theorem midpoint_range (min max : Int) (h : min ≤ max) :
    min ≤ (min + max).tdiv 2 ∧ (min + max).tdiv 2 ≤ max := by
  by_cases hs : 0 ≤ min + max
  · rw [Int.tdiv_eq_ediv hs (by decide)]
    omega
  · have e : (min + max).tdiv 2 = -((-(min + max)) / 2) := by
      rw [← Int.tdiv_eq_ediv (by omega) (by decide), Int.neg_tdiv, neg_neg]
    rw [e]
    omega

/-- The probe establishes the invariant. -/
theorem probe_invariant (g : module_params) (np : Option device_node) (env : probe_env)
    (p0 : rdfpgajoy_data) (hp : (rdfpgajoy_probe g np env).p = some p0) :
    data_invariant p0 := by
  obtain ⟨hx, hy, hf, hd⟩ := probe_data g np env p0 hp
  have hb := input_caps_bits input_dev_zero p0.is_rightjoy p0.min p0.max p0.fuzz
  rw [← hd] at hb
  exact ⟨by omega, Or.inl hx, Or.inl (hy.trans hx), hb.1, hb.2⟩

/-- Every action keeps the invariant and the range. -/
theorem apply_action_invariant (p : rdfpgajoy_data) (a : driver_action)
    (h : data_invariant p) :
    data_invariant (apply_action p a) ∧ (apply_action p a).min = p.min ∧
      (apply_action p a).max = p.max := by
  obtain ⟨hf, hx, hy, ha, hc⟩ := h
  cases a with
  | cycle g recv btn0 =>
    obtain ⟨e1, e2, _, e4, e5, e6, e7⟩ := work_effect g p recv btn0
    refine ⟨⟨e7 hf, ?_, ?_, ?_, ?_⟩, e1, e2⟩
    · simp only [apply_action, e1, e2]
      rcases e6 with ⟨ex, _⟩ | ⟨h1, h2, _, _⟩
      · rw [ex]; exact hx
      · exact Or.inr ⟨h1, h2⟩
    · simp only [apply_action, e1, e2]
      rcases e6 with ⟨_, ey⟩ | ⟨_, _, h3, h4⟩
      · rw [ey]; exact hy
      · exact Or.inr ⟨h3, h4⟩
    · simp only [apply_action, e4, e5]; exact ha
    · simp only [apply_action, e4, e5]; exact hc
  | joyside buffer count =>
    by_cases hb : buffer0 buffer ≠ 'l' ∧ buffer0 buffer ≠ 'r'
    · have e : apply_action p (.joyside buffer count) = p := by
        simp only [apply_action, joyside_store, if_pos hb]
      rw [e]
      exact ⟨⟨hf, hx, hy, ha, hc⟩, rfl, rfl⟩
    · have e : apply_action p (.joyside buffer count) =
          { p with
            is_rightjoy := decide (buffer0 buffer = 'r')
            input_dev := rdfpgajoy_input_caps p.input_dev (decide (buffer0 buffer = 'r'))
              p.min p.max p.fuzz } := by
        simp only [apply_action, joyside_store, if_neg hb]
      have hbits := input_caps_bits p.input_dev (decide (buffer0 buffer = 'r')) p.min p.max
        p.fuzz
      rw [e]
      exact ⟨⟨hf, hx, hy, hbits.1, hbits.2⟩, rfl, rfl⟩

/-- Every run keeps the invariant and the range. -/
theorem run_actions_invariant (acts : List driver_action) :
    ∀ p : rdfpgajoy_data, data_invariant p →
      data_invariant (run_actions p acts) ∧ (run_actions p acts).min = p.min ∧
        (run_actions p acts).max = p.max := by
  induction acts with
  | nil => intro p h; exact ⟨h, rfl, rfl⟩
  | cons a acts ih =>
    intro p h
    obtain ⟨h1, h2, h3⟩ := apply_action_invariant p a h
    obtain ⟨k1, k2, k3⟩ := ih (apply_action p a) h1
    have e : run_actions p (a :: acts) = run_actions (apply_action p a) acts := rfl
    rw [e]
    exact ⟨k1, k2.trans h2, k3.trans h3⟩

/-- C13, as stated, fails: the probe with the range `[0, 100]` and a calibration
request, followed by one cycle reading `(300, 300)`, leaves `calibrate` false
and `center_x = 300`, above `max = 100`. -/
theorem centre_invariant_counterexample :
    ∃ p0 : rdfpgajoy_data,
      (rdfpgajoy_probe params_default (some node_small) env_ok).p = some p0 ∧
      p0.min < p0.max ∧ p0.center_x = (p0.min + p0.max).tdiv 2 ∧
      p0.center_y = (p0.min + p0.max).tdiv 2 ∧
      (run_actions p0 [.cycle params_default recv_300 0]).calibrate = false ∧
      (run_actions p0 [.cycle params_default recv_300 0]).center_x = 300 ∧
      (run_actions p0 [.cycle params_default recv_300 0]).max = 100 ∧
      ¬ ((run_actions p0 [.cycle params_default recv_300 0]).center_x ≤
          (run_actions p0 [.cycle params_default recv_300 0]).max) :=
  ⟨_, rfl, by decide, by decide, by decide, by decide, by decide, by decide, by decide⟩

/-- C13, amended: after a probe whose range covers the raw range (`min ≤ 0` and
`4095 ≤ max`, as the default `[0, 4095]` does) and any sequence of cycles and
`joyside` writes, whenever `calibrate` is false both centre coordinates lie in
`[min, max]`. -/
theorem centre_invariant (g : module_params) (np : Option device_node) (env : probe_env)
    (p0 : rdfpgajoy_data) (hp : (rdfpgajoy_probe g np env).p = some p0)
    (hmin : p0.min ≤ 0) (hmax : 4095 ≤ p0.max) (acts : List driver_action) :
    (run_actions p0 acts).calibrate = false →
      (run_actions p0 acts).min ≤ (run_actions p0 acts).center_x ∧
      (run_actions p0 acts).center_x ≤ (run_actions p0 acts).max ∧
      (run_actions p0 acts).min ≤ (run_actions p0 acts).center_y ∧
      (run_actions p0 acts).center_y ≤ (run_actions p0 acts).max := by
  intro _
  obtain ⟨⟨_, hx, hy, _, _⟩, e1, e2⟩ :=
    run_actions_invariant acts p0 (probe_invariant g np env p0 hp)
  have hm := midpoint_range (run_actions p0 acts).min (run_actions p0 acts).max (by omega)
  rcases hx with hx | hx <;> rcases hy with hy | hy <;> omega

/-- Witness of C13, amended: the default probe with a calibration request, a
failed cycle and then a cycle reading `(300, 300)`. -/
theorem centre_invariant_witness :
    (run_actions { data_default with calibrate := true }
        [.cycle params_default recv_fail 0, .cycle params_default recv_300 0]).calibrate
        = false ∧
      (0 : Int) ≤ (run_actions { data_default with calibrate := true }
        [.cycle params_default recv_fail 0, .cycle params_default recv_300 0]).center_x ∧
      (run_actions { data_default with calibrate := true }
        [.cycle params_default recv_fail 0, .cycle params_default recv_300 0]).center_x
        ≤ 4095 := by
  have h := centre_invariant params_default (some node_calibrate) env_ok
    { data_default with calibrate := true } rfl (by decide) (by decide)
    [.cycle params_default recv_fail 0, .cycle params_default recv_300 0] (by decide)
  exact ⟨by decide, h.1, h.2.1⟩

/-- C17: after `rdfpgajoy_input_caps` for a side, whatever the prior bits, the
button bit and both axis bits of that side are set and those of the other side
are clear; so after the probe and any sequence of cycles and `joyside` writes,
accepted or rejected, the current side is armed and the other side is clear. -/
theorem input_caps_exclusive (input : input_dev) (min max fuzz : Int) :
    ((rdfpgajoy_input_caps input true min max fuzz).keybit BTN_THUMBR = true ∧
        (rdfpgajoy_input_caps input true min max fuzz).absbit ABS_RX = true ∧
        (rdfpgajoy_input_caps input true min max fuzz).absbit ABS_RY = true ∧
        (rdfpgajoy_input_caps input true min max fuzz).keybit BTN_THUMBL = false ∧
        (rdfpgajoy_input_caps input true min max fuzz).absbit ABS_X = false ∧
        (rdfpgajoy_input_caps input true min max fuzz).absbit ABS_Y = false) ∧
      ((rdfpgajoy_input_caps input false min max fuzz).keybit BTN_THUMBL = true ∧
        (rdfpgajoy_input_caps input false min max fuzz).absbit ABS_X = true ∧
        (rdfpgajoy_input_caps input false min max fuzz).absbit ABS_Y = true ∧
        (rdfpgajoy_input_caps input false min max fuzz).keybit BTN_THUMBR = false ∧
        (rdfpgajoy_input_caps input false min max fuzz).absbit ABS_RX = false ∧
        (rdfpgajoy_input_caps input false min max fuzz).absbit ABS_RY = false) ∧
      (∀ (g : module_params) (np : Option device_node) (env : probe_env)
          (p0 : rdfpgajoy_data) (acts : List driver_action),
        (rdfpgajoy_probe g np env).p = some p0 →
          side_armed (run_actions p0 acts).input_dev (run_actions p0 acts).is_rightjoy = true ∧
          side_clear (run_actions p0 acts).input_dev (!(run_actions p0 acts).is_rightjoy)
            = true) := by
  refine ⟨?_, ?_, ?_⟩
  · simp [rdfpgajoy_input_caps, input_set_abs_params, set_bit, clear_bit, ABS_X, ABS_Y,
      ABS_RX, ABS_RY, BTN_THUMBL, BTN_THUMBR]
  · simp [rdfpgajoy_input_caps, input_set_abs_params, set_bit, clear_bit, ABS_X, ABS_Y,
      ABS_RX, ABS_RY, BTN_THUMBL, BTN_THUMBR]
  · intro g np env p0 acts hp
    obtain ⟨⟨_, _, _, ha, hc⟩, _, _⟩ :=
      run_actions_invariant acts p0 (probe_invariant g np env p0 hp)
    exact ⟨ha, hc⟩

/-- Witness of C17: a device with every capability bit set is switched to the
right side; the default probe followed by the writes "r", "x", "l" ends on the
left side with the right side clear. -/
theorem input_caps_exclusive_witness :
    (rdfpgajoy_input_caps ⟨fun _ => true, fun _ => true, fun _ => true, fun _ => ⟨0, 0, 0, 0⟩⟩
        true 0 4095 32).keybit BTN_THUMBL = false ∧
      side_armed (run_actions data_default
        [.joyside ['r'] 1, .joyside ['x'] 1, .joyside ['l'] 1]).input_dev false = true ∧
      side_clear (run_actions data_default
        [.joyside ['r'] 1, .joyside ['x'] 1, .joyside ['l'] 1]).input_dev true = true := by
  have h1 := (input_caps_exclusive
    ⟨fun _ => true, fun _ => true, fun _ => true, fun _ => ⟨0, 0, 0, 0⟩⟩ 0 4095 32).1
  have h2 := (input_caps_exclusive input_dev_zero 0 0 0).2.2 params_default none env_ok
    data_default [.joyside ['r'] 1, .joyside ['x'] 1, .joyside ['l'] 1] rfl
  exact ⟨h1.2.2.2.1, h2.1, h2.2⟩

end Rdfpgajoy
